import Mathlib

/-!
Verification development for the workspaces session-lifecycle manager
(`workspaces-api/app/app.py`).

The embedding models the session store as a list of rows (SQLite table
`sessions`, rowid order = insertion order), timestamps as integers of whole
seconds since the epoch, and each HTTP handler as a pure function from its
resolved inputs and the store to a response plus the new store.  External
effects (docker image pull, container run/stop, in-container credential
setup) are modelled by boolean oracles and by event/attempt ledgers in the
results, so theorems can speak about which runtime calls an operation makes.

Naive `datetime` values (as written by `datetime.now().isoformat()`) are
modelled at whole-second precision by a civil `DateTime` record together
with its instant `toEpoch`; the deployment's fixed local UTC offset is taken
as zero, since every parse site applies the same local interpretation and a
nonzero offset would shift all sites equally.
-/

/-- A naive ISO-8601 timestamp at whole-second precision: the civil fields
`datetime.now().isoformat()` writes out. -/
structure DateTime where
  year : Int
  month : Int
  day : Int
  hour : Int
  minute : Int
  second : Int
deriving Repr, DecidableEq

/-- Days since 1970-01-01 of a civil date (proleptic Gregorian calendar,
standard days-from-civil computation; `/` on `Int` with a positive divisor
is floor division, as in Python). -/
def daysFromCivil (dt : DateTime) : Int :=
  let y := if dt.month ≤ 2 then dt.year - 1 else dt.year
  let era := y / 400
  let yoe := y - era * 400
  let mp := if dt.month ≤ 2 then dt.month + 9 else dt.month - 3
  let doy := (153 * mp + 2) / 5 + dt.day - 1
  let doe := yoe * 365 + yoe / 4 - yoe / 100 + doy
  era * 146097 + doe - 719468

/-- Seconds since the epoch denoted by a naive ISO-8601 timestamp: the value
`int(datetime.fromisoformat(s).timestamp())` yields for the string `s`
written by `datetime.isoformat()` (local offset taken as zero, see header). -/
def toEpoch (dt : DateTime) : Int :=
  daysFromCivil dt * 86400 + dt.hour * 3600 + dt.minute * 60 + dt.second

/-- The stored `created` column.  `api_start` writes
`datetime.now().isoformat()` (the `iso` form); the spec's dual-format
liability also allows a raw integer epoch string (the `epochStr` form). -/
inductive CreatedStored where
  | iso (d : DateTime)
  | epochStr (n : Int)
deriving Repr, DecidableEq

/-- One row of the `sessions` table:
`(user_id, container_name, image, password, created, ttl)` with primary key
`(user_id, container_name)`. -/
structure Session where
  user_id : String
  container_name : String
  image : String
  password : String
  created : CreatedStored
  ttl : Int
deriving Repr, DecidableEq

/-- `created` → epoch seconds, as `cleanup_old_containers` and
`extend_session` both do:
`int(datetime.fromisoformat(created_str.replace('Z', '+00:00')).timestamp())`,
falling back to `int(created_str)` on `ValueError`. -/
def parseCreated : CreatedStored → Int
  | .iso d => toEpoch d
  | .epochStr n => n

/-- `created` → epoch seconds as `api_list` / `format_uptime` do:
`datetime.fromisoformat(created_str)` (no `Z` handling), falling back to
`datetime.fromtimestamp(int(created_str))`; both branches denote this
instant. -/
def parseCreatedList : CreatedStored → Int
  | .iso d => toEpoch d
  | .epochStr n => n

/-- First row matching `SELECT ... WHERE user_id=? AND container_name=?`
(`fetchone`). -/
def findSession (uid cname : String) (store : List Session) : Option Session :=
  store.find? (fun s => s.user_id == uid && s.container_name == cname)

/-- `INSERT OR REPLACE INTO sessions`: SQLite deletes any row conflicting on
the primary key `(user_id, container_name)` and appends the new row. -/
def insertOrReplace (x : Session) (store : List Session) : List Session :=
  (store.filter fun s =>
    !(s.user_id == x.user_id && s.container_name == x.container_name)) ++ [x]

/-- Runtime/store side effects `api_start` performs, in program order. -/
inductive StartEvent where
  | pullAttempt
  | runAttempt
  | credExec (ok : Bool)
  | storeInsert
deriving Repr, DecidableEq

/-- The JSON body of a successful `api_start` response. -/
structure StartSuccess where
  url : String
  username : String
  password : String
  ttl : Int
  name : String
deriving Repr, DecidableEq

/-- Outcome of `api_start`: 401, the two 500 branches, or 200. -/
inductive StartResult where
  | unauthorized
  | pullFailed
  | runFailed
  | ok (r : StartSuccess)
deriving Repr, DecidableEq

/-- `api_start` (route `/api/start/<image>`).  Resolved inputs: `uid` is
`get_user_id()` (the `'anonymous'` fallback when no identity resolves),
`ttlArg` the parsed `ttl` query parameter (`none` when absent), `pullOk` /
`runOk` whether `client.images.pull` / `client.containers.run` succeed,
`credOk` whether the best-effort `exec_run` credential setup succeeds
(swallowed either way), `password` the generated secret and `suffix` the
random `uuid4().hex[:8]`. -/
def apiStart (uid image registry domain : String) (ttlArg : Option Int)
    (pullOk runOk credOk : Bool) (password suffix : String)
    (createdNow : DateTime) (store : List Session) :
    StartResult × List StartEvent × List Session :=
  if uid = "" ∨ uid = "anonymous" then (.unauthorized, [], store)
  else
    let fullImage := registry ++ "/" ++ image ++ ":latest"
    let ttl := ttlArg.getD 0
    let name := "workspaces-" ++ uid ++ "-" ++ (image.replace "/" "-") ++ "-" ++ suffix
    if !pullOk then (.pullFailed, [.pullAttempt], store)
    else if !runOk then (.runFailed, [.pullAttempt, .runAttempt], store)
    else
      let sess : Session := ⟨uid, name, fullImage, password, .iso createdNow, ttl⟩
      (.ok ⟨"https://" ++ name ++ "." ++ domain, "workspaces-user", password, ttl, name⟩,
       [.pullAttempt, .runAttempt, .credExec credOk, .storeInsert],
       insertOrReplace sess store)

/-- Sweep expiry test: `expires_at_ts <= now_ts` with
`expires_at_ts = created_ts + ttl`. -/
def isExpired (now : Int) (s : Session) : Bool :=
  decide (parseCreated s.created + s.ttl ≤ now)

/-- The `expired_names` list `cleanup_old_containers` builds: container
names of rows with `ttl > 0` (the SQL `WHERE ttl > 0`) whose expiry instant
has passed, in row order. -/
def expiredNames (now : Int) (store : List Session) : List String :=
  ((store.filter fun s => decide (0 < s.ttl)).filter (isExpired now)).map
    (·.container_name)

/-- `DELETE FROM sessions WHERE container_name=?` — keyed by name alone. -/
def deleteByName (name : String) (store : List Session) : List Session :=
  store.filter fun s => s.container_name != name

/-- `cleanup_old_containers` (the expiry sweeper).  `stopOk n` is whether
`client.containers.get(n)` + `stop()` succeeds; either way the exception is
swallowed and the `DELETE` runs.  Returns the stop attempts (name, outcome)
in order, and the store after the per-name deletes. -/
def cleanupOldContainers (stopOk : String → Bool) (now : Int)
    (store : List Session) : List (String × Bool) × List Session :=
  let names := expiredNames now store
  (names.map fun n => (n, stopOk n),
   names.foldl (fun st n => deleteByName n st) store)

/-- The `time_left` field of a list entry: the infinite marker string or the
`"{hours}h {minutes}m"` rendering. -/
inductive TimeLeftField where
  | infiniteMark
  | finiteHM (hours minutes : Int)
deriving Repr, DecidableEq

/-- The `expires_at` field: `'Never'` or `expires_at.isoformat()` of this
instant. -/
inductive ExpiresField where
  | never
  | at (epoch : Int)
deriving Repr, DecidableEq

/-- One element of the `containers` array `api_list` returns (the string
`"{h}h {m}m"` renderings carried as their numeric components). -/
structure ListEntry where
  name : String
  image : String
  password : String
  infinite : Bool
  uptimeHours : Int
  uptimeMinutes : Int
  timeLeft : TimeLeftField
  url : String
  expires : ExpiresField
deriving Repr, DecidableEq

/-- The entry `api_list` builds for one row.  `ttl == 0` takes the infinite
branch (uptime via `format_uptime`); otherwise
`expires_at = created + timedelta(seconds=ttl)`,
`time_left = max(timedelta(0), expires_at - now)`, and hours/minutes by
floor division as in Python. -/
def listEntry (domain : String) (now : Int) (s : Session) : ListEntry :=
  if s.ttl = 0 then
    let up := now - parseCreatedList s.created
    { name := s.container_name, image := s.image, password := s.password,
      infinite := true,
      uptimeHours := up / 3600, uptimeMinutes := up % 3600 / 60,
      timeLeft := .infiniteMark,
      url := "https://" ++ s.container_name ++ "." ++ domain,
      expires := .never }
  else
    let created := parseCreatedList s.created
    let up := now - created
    let expiresAt := created + s.ttl
    let timeLeftS := max 0 (expiresAt - now)
    { name := s.container_name, image := s.image, password := s.password,
      infinite := false,
      uptimeHours := up / 3600, uptimeMinutes := up % 3600 / 60,
      timeLeft := .finiteHM (timeLeftS / 3600) (timeLeftS % 3600 / 60),
      url := "https://" ++ s.container_name ++ "." ++ domain,
      expires := .at expiresAt }

/-- `api_list`: 401 (`none`) for an unresolved identity, else the entries
for `SELECT ... WHERE user_id=?` in row order. -/
def apiList (uid domain : String) (now : Int) (store : List Session) :
    Option (List ListEntry) :=
  if uid = "" ∨ uid = "anonymous" then none
  else some ((store.filter fun s => s.user_id == uid).map (listEntry domain now))

/-- Outcome of `api_stop`. -/
inductive StopResult where
  | unauthorized
  | notFound
  | stopped
deriving Repr, DecidableEq

/-- `api_stop`: auth check, owner-scoped lookup (404 and no runtime call if
absent), best-effort container stop (the middle component lists the names a
stop was attempted on), then `DELETE ... WHERE user_id=? AND
container_name=?`. -/
def apiStop (uid cname : String) (store : List Session) :
    StopResult × List String × List Session :=
  if uid = "" ∨ uid = "anonymous" then (.unauthorized, [], store)
  else
    match findSession uid cname store with
    | none => (.notFound, [], store)
    | some _ =>
      (.stopped, [cname],
       store.filter fun s => !(s.user_id == uid && s.container_name == cname))

/-- The JSON body `toggle_autokill` returns: always HTTP 200 with
`success: true` and the new mode string. -/
structure ToggleResponse where
  httpStatus : Nat
  success : Bool
  status : String
deriving Repr, DecidableEq

/-- The SQL `WHERE user_id=? AND container_name=?` match of
`toggle_autokill`, whose `user_id` comes from `session.get('user_id')` and
may be `None` (`NULL` matches no row in SQLite). -/
def rowMatchesOpt (uid : Option String) (cname : String) (s : Session) : Bool :=
  match uid with
  | some u => s.user_id == u && s.container_name == cname
  | none => false

/-- `toggle_autokill`: no identity check; `UPDATE sessions SET ttl=0` (or
`7200`) on the rows matching the possibly-`NULL` identity, and a 200
response reporting the requested mode. -/
def toggleAutokill (uid : Option String) (cname : String) (isInfinite : Bool)
    (store : List Session) : ToggleResponse × List Session :=
  if isInfinite then
    (⟨200, true, "infinite"⟩,
     store.map fun s => if rowMatchesOpt uid cname s then {s with ttl := 0} else s)
  else
    (⟨200, true, "finite"⟩,
     store.map fun s => if rowMatchesOpt uid cname s then {s with ttl := 7200} else s)

/-- Outcome of `extend_session`: 404, the already-infinite no-op, or the
`{old_remaining, added, new_ttl}` success body. -/
inductive ExtendResult where
  | notFound
  | alreadyInfinite
  | extended (old_remaining added new_ttl : Int)
deriving Repr, DecidableEq

/-- `extend_session`: `uid` is `get_user_id()`, `ttlArg` the parsed `ttl`
query parameter (default 7200), `now` is `int(time.time())`.  Looks up the
row by `(user_id, container_name)`; 404 if absent; no-op
reporting `already infinite` if `ttl == 0`; otherwise
`time_left = max(0, current_ttl - (now - created))`,
`new_ttl = time_left + ttlArg`, persisted by
`UPDATE sessions SET ttl=? WHERE user_id=? AND container_name=?`. -/
def extendSession (uid cname : String) (ttlArg now : Int)
    (store : List Session) : ExtendResult × List Session :=
  match findSession uid cname store with
  | none => (.notFound, store)
  | some row =>
    if row.ttl = 0 then (.alreadyInfinite, store)
    else
      let oldCreated := parseCreated row.created
      let timeElapsed := now - oldCreated
      let timeLeft := max 0 (row.ttl - timeElapsed)
      let newTtl := timeLeft + ttlArg
      (.extended timeLeft ttlArg newTtl,
       store.map fun r =>
         if r.user_id == uid && r.container_name == cname then
           {r with ttl := newTtl}
         else r)

/-! ## Observation layer

`SessObs` carries exactly the per-row data the handlers consume once the
`created` column has been parsed; `obs` projects a row onto it.  Two rows
whose `created` columns denote the same instant in the two accepted formats
have equal observations, which is how the dual-format claims are settled. -/

/-- A session row as the handlers observe it: all columns, with `created`
replaced by its parsed instant at both parse sites. -/
structure SessObs where
  user_id : String
  container_name : String
  image : String
  password : String
  ttl : Int
  createdEpoch : Int
  createdEpochList : Int
deriving Repr, DecidableEq

/-- Project a row onto what the handlers observe of it. -/
def obs (s : Session) : SessObs :=
  ⟨s.user_id, s.container_name, s.image, s.password, s.ttl,
   parseCreated s.created, parseCreatedList s.created⟩

/-- `expiredNames` computed over observations. -/
def obsExpiredNames (now : Int) (l : List SessObs) : List String :=
  ((l.filter fun o => decide (0 < o.ttl)).filter fun o =>
      decide (o.createdEpoch + o.ttl ≤ now)).map (·.container_name)

theorem expiredNames_obs (now : Int) (store : List Session) :
    expiredNames now store = obsExpiredNames now (store.map obs) := by
  unfold expiredNames obsExpiredNames isExpired
  rw [List.filter_map, List.filter_map, List.map_map]
  rfl

/-- The `(user_id, container_name)` row match over observations. -/
def obsKey (uid cname : String) (o : SessObs) : Bool :=
  o.user_id == uid && o.container_name == cname

/-- `extendSession` computed over observations. -/
def obsExtend (uid cname : String) (ttlArg now : Int) (l : List SessObs) :
    ExtendResult × List SessObs :=
  match l.find? (obsKey uid cname) with
  | none => (.notFound, l)
  | some o =>
    if o.ttl = 0 then (.alreadyInfinite, l)
    else
      let timeLeft := max 0 (o.ttl - (now - o.createdEpoch))
      (.extended timeLeft ttlArg (timeLeft + ttlArg),
       l.map fun x =>
         if obsKey uid cname x then {x with ttl := timeLeft + ttlArg} else x)

theorem extendSession_obs (uid cname : String) (a n : Int) (store : List Session) :
    (extendSession uid cname a n store).1 =
      (obsExtend uid cname a n (store.map obs)).1 ∧
    (extendSession uid cname a n store).2.map obs =
      (obsExtend uid cname a n (store.map obs)).2 := by
  unfold extendSession obsExtend findSession
  rw [List.find?_map]
  have hcomp : (obsKey uid cname ∘ obs) =
      (fun s : Session => s.user_id == uid && s.container_name == cname) := rfl
  rw [hcomp]
  cases hf : store.find? (fun s => s.user_id == uid && s.container_name == cname) with
  | none => exact ⟨rfl, rfl⟩
  | some row =>
    simp only [Option.map_some']
    have httl : (obs row).ttl = row.ttl := rfl
    by_cases h0 : row.ttl = 0
    · simp only [httl, h0, if_pos rfl]
      exact ⟨rfl, rfl⟩
    · simp only [httl, if_neg h0]
      refine ⟨rfl, ?_⟩
      rw [List.map_map, List.map_map]
      refine List.map_congr_left fun r _ => ?_
      simp only [Function.comp_apply]
      by_cases hk : (r.user_id == uid && r.container_name == cname) = true
      · have hk2 : obsKey uid cname (obs r) = true := hk
        rw [if_pos hk, if_pos hk2]
        rfl
      · have hk2 : ¬ obsKey uid cname (obs r) = true := hk
        rw [if_neg hk, if_neg hk2]

/-- `listEntry` computed over observations. -/
def obsListEntry (domain : String) (now : Int) (o : SessObs) : ListEntry :=
  if o.ttl = 0 then
    { name := o.container_name, image := o.image, password := o.password,
      infinite := true,
      uptimeHours := (now - o.createdEpochList) / 3600,
      uptimeMinutes := (now - o.createdEpochList) % 3600 / 60,
      timeLeft := .infiniteMark,
      url := "https://" ++ o.container_name ++ "." ++ domain,
      expires := .never }
  else
    let created := o.createdEpochList
    let expiresAt := created + o.ttl
    let timeLeftS := max 0 (expiresAt - now)
    { name := o.container_name, image := o.image, password := o.password,
      infinite := false,
      uptimeHours := (now - created) / 3600,
      uptimeMinutes := (now - created) % 3600 / 60,
      timeLeft := .finiteHM (timeLeftS / 3600) (timeLeftS % 3600 / 60),
      url := "https://" ++ o.container_name ++ "." ++ domain,
      expires := .at expiresAt }

theorem listEntry_obs (domain : String) (now : Int) (s : Session) :
    listEntry domain now s = obsListEntry domain now (obs s) := rfl

/-- `apiList` computed over observations. -/
def obsApiList (uid domain : String) (now : Int) (l : List SessObs) :
    Option (List ListEntry) :=
  if uid = "" ∨ uid = "anonymous" then none
  else some ((l.filter fun o => o.user_id == uid).map (obsListEntry domain now))

theorem apiList_obs (uid domain : String) (now : Int) (store : List Session) :
    apiList uid domain now store = obsApiList uid domain now (store.map obs) := by
  unfold apiList obsApiList
  split_ifs with h
  · rfl
  · rw [List.filter_map, List.map_map]
    rfl

theorem deleteByName_map_obs (n : String) (st : List Session) :
    (deleteByName n st).map obs =
      (st.map obs).filter fun o => o.container_name != n := by
  unfold deleteByName
  rw [List.filter_map]
  rfl

theorem foldl_delete_map_obs (names : List String) (store : List Session) :
    (names.foldl (fun st n => deleteByName n st) store).map obs =
      names.foldl (fun l n => l.filter fun o => o.container_name != n)
        (store.map obs) := by
  induction names generalizing store with
  | nil => rfl
  | cons n rest ih =>
    simp only [List.foldl_cons]
    rw [ih, deleteByName_map_obs]

theorem mem_foldl_deleteByName (names : List String) (store : List Session)
    (s : Session) :
    s ∈ names.foldl (fun st n => deleteByName n st) store ↔
      s ∈ store ∧ s.container_name ∉ names := by
  induction names generalizing store with
  | nil => simp
  | cons n rest ih =>
    rw [List.foldl_cons, ih]
    simp only [deleteByName, List.mem_filter, bne_iff_ne, ne_eq, List.mem_cons]
    tauto

/-! ## Shared concrete fixtures for witnesses -/

/-- A finite-TTL demo row (the section-8 scenario: created at T=0, ttl 3600). -/
def demoFinite : Session := ⟨"alice", "c1", "img", "pw", .epochStr 0, 3600⟩

/-- An infinite-TTL demo row. -/
def demoInfinite : Session := ⟨"bob", "c2", "img2", "pw2", .epochStr 0, 0⟩

/-- A demo store holding one finite and one infinite session. -/
def demoStore : List Session := [demoFinite, demoInfinite]

/-! ## Claims -/

/-- C1: for a stored session with `current_ttl > 0`, `extend_session`
persists `new_ttl = max(0, current_ttl - (now - created_at)) + added_seconds`
and returns `old_remaining = max(0, current_ttl - (now - created_at))`,
`added = added_seconds` and `new_ttl`; for a stored session with
`current_ttl == 0` it leaves the store untouched and reports the
already-infinite outcome instead of doing any arithmetic update. -/
theorem extend_session_ttl_semantics (uid cname : String) (add now : Int)
    (store : List Session) (s : Session)
    (hfind : findSession uid cname store = some s) :
    (s.ttl = 0 →
      extendSession uid cname add now store = (.alreadyInfinite, store)) ∧
    (0 < s.ttl →
      extendSession uid cname add now store =
        (ExtendResult.extended (max 0 (s.ttl - (now - parseCreated s.created)))
          add (max 0 (s.ttl - (now - parseCreated s.created)) + add),
         store.map fun r =>
           if r.user_id == uid && r.container_name == cname then
             {r with ttl := max 0 (s.ttl - (now - parseCreated s.created)) + add}
           else r) ∧
      findSession uid cname (extendSession uid cname add now store).2 =
        some {s with ttl := max 0 (s.ttl - (now - parseCreated s.created)) + add}) := by
  constructor
  · intro h0
    simp [extendSession, hfind, h0]
  · intro hpos
    have hne : ¬s.ttl = 0 := by omega
    have heq : extendSession uid cname add now store =
        (ExtendResult.extended (max 0 (s.ttl - (now - parseCreated s.created)))
          add (max 0 (s.ttl - (now - parseCreated s.created)) + add),
         store.map fun r =>
           if r.user_id == uid && r.container_name == cname then
             {r with ttl := max 0 (s.ttl - (now - parseCreated s.created)) + add}
           else r) := by
      simp [extendSession, hfind, hne]
    refine ⟨heq, ?_⟩
    rw [heq]
    have hfind2 : store.find?
        (fun r : Session => r.user_id == uid && r.container_name == cname) = some s := hfind
    have hps : (s.user_id == uid && s.container_name == cname) = true :=
      (List.find?_eq_some.mp hfind2).1
    unfold findSession
    rw [List.find?_map]
    have hcomp : ((fun r : Session => r.user_id == uid && r.container_name == cname) ∘
        (fun r : Session =>
          if r.user_id == uid && r.container_name == cname then
            {r with ttl := max 0 (s.ttl - (now - parseCreated s.created)) + add}
          else r)) =
        (fun r : Session => r.user_id == uid && r.container_name == cname) := by
      funext r
      by_cases hk : (r.user_id == uid && r.container_name == cname) = true
      · simp only [Function.comp_apply, if_pos hk]
      · simp only [Function.comp_apply, if_neg hk]
    rw [hcomp]
    have : store.find? (fun r => r.user_id == uid && r.container_name == cname) = some s :=
      hfind
    rw [this, Option.map_some', if_pos hps]

/-- C1 witness: the section-8 scenario (created at T=0, ttl 3600, extend at
T=1800 by 1800) through `extend_session_ttl_semantics`. -/
theorem extend_session_ttl_semantics_witness :
    extendSession "alice" "c1" 1800 1800 [demoFinite] =
      (ExtendResult.extended 1800 1800 3600,
       [⟨"alice", "c1", "img", "pw", .epochStr 0, 3600⟩]) := by
  have h := extend_session_ttl_semantics "alice" "c1" 1800 1800 [demoFinite]
    demoFinite (by decide)
  rw [(h.2 (by decide)).1]
  decide

/-- C2 counterexample: a toggle-autokill request with no resolvable caller
identity (`session.get('user_id')` is `None`) does not fail with
Unauthorized — it returns HTTP 200 with `success: true` reporting the
requested mode, after running its `UPDATE` against the null identity. -/
theorem toggle_autokill_no_identity_succeeds :
    (toggleAutokill none "c1" true demoStore).1.httpStatus = 200 ∧
    (toggleAutokill none "c1" true demoStore).1.success = true ∧
    (toggleAutokill none "c1" true demoStore).1.status = "infinite" ∧
    (toggleAutokill none "c1" true demoStore).2 = demoStore := by
  decide

/-- C2 amended: provision, list and stop reject an unresolved identity
(which `get_user_id()` maps to `'anonymous'`) with Unauthorized before any
store or runtime interaction; toggle-autokill performs no identity check —
its `UPDATE` runs against the unresolved (`NULL`) identity, matching no row,
and it reports the requested mode with success — and extend proceeds under
the literal identity `'anonymous'`, reporting NotFound when no session is
stored under that owner. -/
theorem unauthorized_gating_amended (cname image registry domain password
    suffix : String) (ttlArg : Option Int) (pullOk runOk credOk : Bool)
    (createdNow : DateTime) (now add : Int) (isInf : Bool)
    (store : List Session) (hanon : ∀ s ∈ store, s.user_id ≠ "anonymous") :
    apiStart "anonymous" image registry domain ttlArg pullOk runOk credOk
        password suffix createdNow store = (.unauthorized, [], store) ∧
    apiList "anonymous" domain now store = none ∧
    apiStop "anonymous" cname store = (.unauthorized, [], store) ∧
    toggleAutokill none cname isInf store =
      (⟨200, true, if isInf then "infinite" else "finite"⟩, store) ∧
    extendSession "anonymous" cname add now store = (.notFound, store) := by
  refine ⟨by simp [apiStart], by simp [apiList], by simp [apiStop], ?_, ?_⟩
  · have hmap : ∀ v : Int,
        (store.map fun s =>
          if rowMatchesOpt none cname s then {s with ttl := v} else s) = store := by
      intro v
      have : (store.map fun s =>
          if rowMatchesOpt none cname s then {s with ttl := v} else s) =
          store.map id := by
        refine List.map_congr_left fun s _ => ?_
        simp [rowMatchesOpt]
      rw [this, List.map_id]
    cases isInf <;> simp [toggleAutokill, hmap]
  · have hnone : findSession "anonymous" cname store = none := by
      unfold findSession
      rw [List.find?_eq_none]
      intro x hx
      simp only [Bool.and_eq_true, beq_iff_eq, not_and]
      intro hxu
      exact absurd hxu (hanon x hx)
    simp [extendSession, hnone]

/-- C2 amended witness: the gating behavior at a concrete store with no
`'anonymous'`-owned row. -/
theorem unauthorized_gating_amended_witness :
    apiStart "anonymous" "brave" "reg" "dom" none true true true "pw" "sfx"
        ⟨2024, 1, 1, 0, 0, 0⟩ demoStore = (.unauthorized, [], demoStore) ∧
    apiList "anonymous" "dom" 100 demoStore = none ∧
    apiStop "anonymous" "c1" demoStore = (.unauthorized, [], demoStore) ∧
    toggleAutokill none "c1" false demoStore =
      (⟨200, true, if false then "infinite" else "finite"⟩, demoStore) ∧
    extendSession "anonymous" "c1" 7200 100 demoStore = (.notFound, demoStore) :=
  unauthorized_gating_amended "c1" "brave" "reg" "dom" "pw" "sfx" none true
    true true ⟨2024, 1, 1, 0, 0, 0⟩ 100 7200 false demoStore (by decide)

/-- C3: in one sweep pass, every finite session past its expiry instant gets
exactly one stop attempt for its container (the attempt list is exactly the
expired sessions' names, in row order, with an attempt outcome each) and its
record is deleted from the store, whatever the stop outcomes; the resulting
store does not depend on the stop oracle at all, so one container's stop
failure never prevents the remaining expired sessions from being processed. -/
theorem sweep_expired_stop_once_and_delete (stopOk : String → Bool)
    (now : Int) (store : List Session) (s : Session) (hs : s ∈ store)
    (hfin : 0 < s.ttl) (hexp : parseCreated s.created + s.ttl ≤ now) :
    (cleanupOldContainers stopOk now store).1 =
      (((store.filter fun t => decide (0 < t.ttl)).filter (isExpired now)).map
        (·.container_name)).map (fun n => (n, stopOk n)) ∧
    s.container_name ∈ expiredNames now store ∧
    s ∉ (cleanupOldContainers stopOk now store).2 ∧
    (cleanupOldContainers stopOk now store).2 =
      (cleanupOldContainers (fun _ => false) now store).2 := by
  have hmem : s.container_name ∈ expiredNames now store := by
    unfold expiredNames
    refine List.mem_map.2 ⟨s, ?_, rfl⟩
    refine List.mem_filter.2 ⟨List.mem_filter.2 ⟨hs, ?_⟩, ?_⟩
    · exact decide_eq_true hfin
    · exact decide_eq_true hexp
  refine ⟨rfl, hmem, ?_, rfl⟩
  intro hin
  exact absurd hmem ((mem_foldl_deleteByName _ _ _).1 hin).2

/-- C3 witness: at `now = 4000` the finite demo session (created 0, ttl
3600) is expired; the sweep with an all-failing stop oracle still attempts
its stop once and deletes it. -/
theorem sweep_expired_stop_once_and_delete_witness :
    (cleanupOldContainers (fun _ => false) 4000 demoStore).1 =
      ((((demoStore.filter fun t => decide (0 < t.ttl)).filter
        (isExpired 4000)).map (·.container_name)).map fun n => (n, false)) ∧
    demoFinite.container_name ∈ expiredNames 4000 demoStore ∧
    demoFinite ∉ (cleanupOldContainers (fun _ => false) 4000 demoStore).2 ∧
    (cleanupOldContainers (fun _ => false) 4000 demoStore).2 =
      (cleanupOldContainers (fun _ => false) 4000 demoStore).2 :=
  sweep_expired_stop_once_and_delete (fun _ => false) 4000 demoStore
    demoFinite (by decide) (by decide) (by decide)

/-- An expired finite session named `"c"` owned by `u1`. -/
def collideFinite : Session := ⟨"u1", "c", "img", "pw", .epochStr 0, 10⟩

/-- An infinite session owned by `u2` sharing the container name `"c"`. -/
def collideInfinite : Session := ⟨"u2", "c", "img2", "pw2", .epochStr 0, 0⟩

/-- C4 counterexample: the sweep's `DELETE` is keyed by `container_name`
alone, so when an infinite session (`ttl = 0`) shares its container name
with an expired finite session, the sweep deletes the infinite session too:
here `collideInfinite` is present before the sweep at `now = 100` but gone
afterward. -/
theorem sweep_name_collision_deletes_infinite :
    collideInfinite.ttl = 0 ∧
    collideInfinite ∈ [collideFinite, collideInfinite] ∧
    collideInfinite ∉
      (cleanupOldContainers (fun _ => true) 100
        [collideFinite, collideInfinite]).2 := by
  decide

/-- C4 amended: the sweep never selects a `ttl = 0` session for expiry (it
is excluded from the `WHERE ttl > 0` query), and every infinite session
whose container name does not collide with an expired finite session's name
survives the sweep unchanged with no stop attempted on its container; only
the name-keyed `DELETE` can remove an infinite session, through such a
collision. -/
theorem sweep_preserves_infinite_amended (stopOk : String → Bool) (now : Int)
    (store : List Session) (s : Session) (hs : s ∈ store) (h0 : s.ttl = 0)
    (hname : s.container_name ∉ expiredNames now store) :
    s ∉ (store.filter fun t => decide (0 < t.ttl)) ∧
    s ∈ (cleanupOldContainers stopOk now store).2 ∧
    s.container_name ∉ (cleanupOldContainers stopOk now store).1.map Prod.fst := by
  refine ⟨?_, ?_, ?_⟩
  · intro hin
    have := (List.mem_filter.1 hin).2
    rw [decide_eq_true_eq] at this
    omega
  · exact (mem_foldl_deleteByName _ _ _).2 ⟨hs, hname⟩
  · have : (cleanupOldContainers stopOk now store).1.map Prod.fst =
        expiredNames now store := by
      unfold cleanupOldContainers
      rw [List.map_map]
      exact List.map_id _
    rw [this]
    exact hname

/-- C4 amended witness: at `now = 100` nothing in the demo store is expired,
so the infinite demo session survives the sweep untouched. -/
theorem sweep_preserves_infinite_amended_witness :
    demoInfinite ∉ (demoStore.filter fun t => decide (0 < t.ttl)) ∧
    demoInfinite ∈ (cleanupOldContainers (fun _ => true) 100 demoStore).2 ∧
    demoInfinite.container_name ∉
      (cleanupOldContainers (fun _ => true) 100 demoStore).1.map Prod.fst :=
  sweep_preserves_infinite_amended (fun _ => true) 100 demoStore demoInfinite
    (by decide) (by decide) (by decide)

/-- C5 counterexample: `api_start` parses the client-supplied `ttl` query
parameter with a bare `int(...)` and persists it unvalidated, so a request
with `ttl=-100` stores a session whose `ttl_seconds` is negative. -/
theorem provision_negative_ttl_persisted :
    ((apiStart "alice" "brave" "reg" "dom" (some (-100)) true true true "pw"
        "ab12cd34" ⟨2024, 1, 1, 0, 0, 0⟩ []).2.2.map (·.ttl)) = [-100] ∧
    ¬(0 : Int) ≤ -100 := by
  constructor
  · rfl
  · decide

/-- All persisted `ttl` values in a store are non-negative. -/
def ttlNonneg (store : List Session) : Prop := ∀ s ∈ store, 0 ≤ s.ttl

instance (store : List Session) : Decidable (ttlNonneg store) :=
  inferInstanceAs (Decidable (∀ s ∈ store, 0 ≤ s.ttl))

/-- C5 amended: provided the client-supplied TTL parameters are
non-negative (the requested TTL of a provision and the added seconds of an
extend), every operation leaves all persisted `ttl_seconds` values
non-negative: provision inserts the requested value, extend persists
`max(0, remaining) + added`, toggle persists `0` or `7200`, and the sweep
only deletes rows. -/
theorem ttl_nonneg_invariant_amended (store : List Session)
    (hst : ttlNonneg store)
    (uid image registry domain password suffix cname : String)
    (ttlArg : Option Int) (hreq : 0 ≤ ttlArg.getD 0)
    (pullOk runOk credOk : Bool) (createdNow : DateTime)
    (add now : Int) (hadd : 0 ≤ add)
    (uidOpt : Option String) (isInf : Bool) (stopOk : String → Bool) :
    ttlNonneg (apiStart uid image registry domain ttlArg pullOk runOk credOk
      password suffix createdNow store).2.2 ∧
    ttlNonneg (extendSession uid cname add now store).2 ∧
    ttlNonneg (toggleAutokill uidOpt cname isInf store).2 ∧
    ttlNonneg (cleanupOldContainers stopOk now store).2 := by
  refine ⟨?_, ?_, ?_, ?_⟩
  · unfold apiStart
    split_ifs with h1 h2 h3
    · exact hst
    · exact hst
    · exact hst
    · intro t ht
      rcases List.mem_append.1 ht with hin | hin
      · exact hst t (List.mem_filter.1 hin).1
      · rcases List.mem_singleton.1 hin with rfl
        exact hreq
  · unfold extendSession
    cases hf : findSession uid cname store with
    | none => exact hst
    | some row =>
      by_cases h0 : row.ttl = 0
      · simp only [h0, if_pos rfl]
        exact hst
      · simp only [if_neg h0]
        intro t ht
        obtain ⟨r, hr, rfl⟩ := List.mem_map.1 ht
        by_cases hk : (r.user_id == uid && r.container_name == cname) = true
        · rw [if_pos hk]
          have hmax : (0 : Int) ≤ max 0 (row.ttl - (now - parseCreated row.created)) :=
            le_max_left 0 _
          show (0 : Int) ≤ max 0 (row.ttl - (now - parseCreated row.created)) + add
          omega
        · rw [if_neg hk]
          exact hst r hr
  · unfold toggleAutokill
    split_ifs with h
    · intro t ht
      obtain ⟨r, hr, rfl⟩ := List.mem_map.1 ht
      by_cases hk : rowMatchesOpt uidOpt cname r = true
      · rw [if_pos hk]
      · rw [if_neg hk]
        exact hst r hr
    · intro t ht
      obtain ⟨r, hr, rfl⟩ := List.mem_map.1 ht
      by_cases hk : rowMatchesOpt uidOpt cname r = true
      · rw [if_pos hk]
        norm_num
      · rw [if_neg hk]
        exact hst r hr
  · intro t ht
    exact hst t ((mem_foldl_deleteByName _ _ _).1 ht).1

/-- C5 amended witness: the preserved invariant at concrete non-negative
inputs over the demo store. -/
theorem ttl_nonneg_invariant_amended_witness :
    ttlNonneg (apiStart "alice" "brave" "reg" "dom" (some 7200) true true
      true "pw" "sfx" ⟨2024, 1, 1, 0, 0, 0⟩ demoStore).2.2 ∧
    ttlNonneg (extendSession "alice" "c1" 7200 1800 demoStore).2 ∧
    ttlNonneg (toggleAutokill (some "alice") "c1" false demoStore).2 ∧
    ttlNonneg (cleanupOldContainers (fun _ => true) 1800 demoStore).2 :=
  ttl_nonneg_invariant_amended demoStore (by decide) "alice" "brave" "reg"
    "dom" "pw" "sfx" "c1" (some 7200) (by decide) true true true
    ⟨2024, 1, 1, 0, 0, 0⟩ 7200 1800 (by decide) (some "alice") false
    (fun _ => true)

/-- C6: when the image pull or the container launch fails, `api_start`
returns the corresponding provisioning failure, the store is unchanged, and
no session-record insert is performed. -/
theorem provision_failure_no_record (uid image registry domain password
    suffix : String) (ttlArg : Option Int) (credOk : Bool)
    (createdNow : DateTime) (store : List Session)
    (hu1 : uid ≠ "") (hu2 : uid ≠ "anonymous")
    (pullOk runOk : Bool) (hfail : pullOk = false ∨ runOk = false) :
    ((apiStart uid image registry domain ttlArg pullOk runOk credOk password
        suffix createdNow store).1 = .pullFailed ∨
     (apiStart uid image registry domain ttlArg pullOk runOk credOk password
        suffix createdNow store).1 = .runFailed) ∧
    (apiStart uid image registry domain ttlArg pullOk runOk credOk password
      suffix createdNow store).2.2 = store ∧
    StartEvent.storeInsert ∉ (apiStart uid image registry domain ttlArg
      pullOk runOk credOk password suffix createdNow store).2.1 := by
  have hauth : ¬(uid = "" ∨ uid = "anonymous") := by
    rintro (h | h)
    · exact hu1 h
    · exact hu2 h
  rcases hfail with hp | hr
  · subst hp
    simp [apiStart, hauth]
  · subst hr
    cases pullOk with
    | false => simp [apiStart, hauth]
    | true => simp [apiStart, hauth]

/-- C6 witness: a failing pull at concrete inputs through
`provision_failure_no_record`. -/
theorem provision_failure_no_record_witness :
    ((apiStart "alice" "brave" "reg" "dom" (some 7200) false true true "pw"
        "sfx" ⟨2024, 1, 1, 0, 0, 0⟩ demoStore).1 = .pullFailed ∨
     (apiStart "alice" "brave" "reg" "dom" (some 7200) false true true "pw"
        "sfx" ⟨2024, 1, 1, 0, 0, 0⟩ demoStore).1 = .runFailed) ∧
    (apiStart "alice" "brave" "reg" "dom" (some 7200) false true true "pw"
      "sfx" ⟨2024, 1, 1, 0, 0, 0⟩ demoStore).2.2 = demoStore ∧
    StartEvent.storeInsert ∉ (apiStart "alice" "brave" "reg" "dom"
      (some 7200) false true true "pw" "sfx" ⟨2024, 1, 1, 0, 0, 0⟩
      demoStore).2.1 :=
  provision_failure_no_record "alice" "brave" "reg" "dom" "pw" "sfx"
    (some 7200) true ⟨2024, 1, 1, 0, 0, 0⟩ demoStore (by decide) (by decide)
    false true (Or.inl rfl)

/-- C7: whatever the session's current TTL, toggling with `infinite=True`
persists `ttl = 0` and reports mode `infinite`, and toggling with
`infinite=False` persists `ttl = 7200` and reports mode `finite`: the
response carries the requested mode, the updated row is in the new store,
and every row under the caller's key carries the toggled TTL. -/
theorem toggle_autokill_sets_ttl (uid cname : String) (isInf : Bool)
    (store : List Session) (s : Session) (hs : s ∈ store)
    (hu : s.user_id = uid) (hc : s.container_name = cname) :
    (toggleAutokill (some uid) cname isInf store).1 =
      ⟨200, true, if isInf then "infinite" else "finite"⟩ ∧
    ({s with ttl := if isInf then 0 else 7200} : Session) ∈
      (toggleAutokill (some uid) cname isInf store).2 ∧
    (∀ t ∈ (toggleAutokill (some uid) cname isInf store).2,
      t.user_id = uid → t.container_name = cname →
        t.ttl = if isInf then 0 else 7200) := by
  have hkey : rowMatchesOpt (some uid) cname s = true := by
    simp [rowMatchesOpt, hu, hc]
  have hmain : ∀ v : Int,
      ({s with ttl := v} : Session) ∈
        (store.map fun r => if rowMatchesOpt (some uid) cname r then
          {r with ttl := v} else r) ∧
      ∀ t ∈ (store.map fun r => if rowMatchesOpt (some uid) cname r then
          {r with ttl := v} else r),
        t.user_id = uid → t.container_name = cname → t.ttl = v := by
    intro v
    constructor
    · refine List.mem_map.2 ⟨s, hs, ?_⟩
      rw [if_pos hkey]
    · intro t ht htu htc
      obtain ⟨r, hr, rfl⟩ := List.mem_map.1 ht
      by_cases hk : rowMatchesOpt (some uid) cname r = true
      · rw [if_pos hk]
      · rw [if_neg hk] at htu htc ⊢
        exact absurd (by simp [rowMatchesOpt, htu, htc]) hk
  cases isInf with
  | true =>
    refine ⟨rfl, ?_, ?_⟩
    · exact (hmain 0).1
    · exact (hmain 0).2
  | false =>
    refine ⟨rfl, ?_, ?_⟩
    · exact (hmain 7200).1
    · exact (hmain 7200).2

/-- C7 witness: toggling the finite demo session to infinite through
`toggle_autokill_sets_ttl`. -/
theorem toggle_autokill_sets_ttl_witness :
    (toggleAutokill (some "alice") "c1" true demoStore).1 =
      ⟨200, true, if true then "infinite" else "finite"⟩ ∧
    ({demoFinite with ttl := if true then 0 else 7200} : Session) ∈
      (toggleAutokill (some "alice") "c1" true demoStore).2 ∧
    (∀ t ∈ (toggleAutokill (some "alice") "c1" true demoStore).2,
      t.user_id = "alice" → t.container_name = "c1" →
        t.ttl = if true then 0 else 7200) :=
  toggle_autokill_sets_ttl "alice" "c1" true demoStore demoFinite
    (by decide) (by decide) (by decide)

/-- C8: every entry `api_list` returns for a caller comes from a stored
session whose `owner_id` equals the caller's identity; no other owner's
session contributes an entry, whatever the store contents (name collisions
across owners included). -/
theorem list_only_own_sessions (uid domain : String) (now : Int)
    (store : List Session) (entries : List ListEntry)
    (h : apiList uid domain now store = some entries)
    (e : ListEntry) (he : e ∈ entries) :
    ∃ s, s ∈ store ∧ s.user_id = uid ∧ e = listEntry domain now s := by
  unfold apiList at h
  split_ifs at h with hauth
  rw [Option.some_inj] at h
  subst h
  obtain ⟨s, hsmem, rfl⟩ := List.mem_map.1 he
  have hfil := List.mem_filter.1 hsmem
  refine ⟨s, hfil.1, ?_, rfl⟩
  have := hfil.2
  rwa [beq_iff_eq] at this

/-- C8 witness: `list_only_own_sessions` applied to the entry alice's list
produces over the demo store. -/
theorem list_only_own_sessions_witness :
    ∃ s, s ∈ demoStore ∧ s.user_id = "alice" ∧
      listEntry "dom" 1800 demoFinite = listEntry "dom" 1800 s :=
  list_only_own_sessions "alice" "dom" 1800 demoStore
    [listEntry "dom" 1800 demoFinite] (by rfl)
    (listEntry "dom" 1800 demoFinite) (List.mem_singleton.2 rfl)

/-- C10: when no stored session matches the caller identity and container
name, toggle-autokill still returns HTTP 200 success reporting the requested
new mode and leaves the store unchanged — it never reports NotFound. -/
theorem toggle_autokill_absent_pair (uidOpt : Option String) (cname : String)
    (isInf : Bool) (store : List Session)
    (habs : ∀ s ∈ store, ¬(uidOpt = some s.user_id ∧ s.container_name = cname)) :
    toggleAutokill uidOpt cname isInf store =
      (⟨200, true, if isInf then "infinite" else "finite"⟩, store) := by
  have hfalse : ∀ s ∈ store, rowMatchesOpt uidOpt cname s = false := by
    intro s hsm
    cases uidOpt with
    | none => rfl
    | some u =>
      have := habs s hsm
      simp only [rowMatchesOpt, Bool.and_eq_false_iff, beq_eq_false_iff_ne, ne_eq]
      by_cases hu : s.user_id = u
      · right
        intro hc
        exact this ⟨by rw [hu], hc⟩
      · left
        exact hu
  have hmap : ∀ v : Int,
      (store.map fun s =>
        if rowMatchesOpt uidOpt cname s then {s with ttl := v} else s) = store := by
    intro v
    have : (store.map fun s =>
        if rowMatchesOpt uidOpt cname s then {s with ttl := v} else s) =
        store.map id := by
      refine List.map_congr_left fun s hsm => ?_
      rw [hfalse s hsm]
      rfl
    rw [this, List.map_id]
  cases isInf with
  | true =>
    unfold toggleAutokill
    rw [if_pos rfl, hmap 0]
    rfl
  | false =>
    unfold toggleAutokill
    rw [if_neg (by simp), hmap 7200]
    rfl

/-- C10 witness: toggling an absent pair over the demo store through
`toggle_autokill_absent_pair`. -/
theorem toggle_autokill_absent_pair_witness :
    toggleAutokill (some "zed") "nope" false demoStore =
      (⟨200, true, if false then "infinite" else "finite"⟩, demoStore) :=
  toggle_autokill_absent_pair (some "zed") "nope" false demoStore (by decide)

/-- C9: every `created_at` read site — the sweep's expiry computation, the
extend elapsed-time computation, and the list uptime/remaining computation —
accepts the stored value in ISO-8601 textual form or raw integer epoch form,
and the two representations of the same instant produce the same results:
the same expired-name selection and stop attempts in a sweep with
observably equal swept stores, the same extend response with observably
equal updated stores, and the same list response. -/
theorem created_at_dual_format_agrees (d : DateTime) (s : Session)
    (pre post : List Session) (stopOk : String → Bool)
    (uid domain cname : String) (add now : Int) :
    expiredNames now (pre ++ {s with created := .iso d} :: post) =
      expiredNames now
        (pre ++ {s with created := .epochStr (toEpoch d)} :: post) ∧
    (cleanupOldContainers stopOk now
        (pre ++ {s with created := .iso d} :: post)).1 =
      (cleanupOldContainers stopOk now
        (pre ++ {s with created := .epochStr (toEpoch d)} :: post)).1 ∧
    (cleanupOldContainers stopOk now
        (pre ++ {s with created := .iso d} :: post)).2.map obs =
      (cleanupOldContainers stopOk now
        (pre ++ {s with created := .epochStr (toEpoch d)} :: post)).2.map obs ∧
    (extendSession uid cname add now
        (pre ++ {s with created := .iso d} :: post)).1 =
      (extendSession uid cname add now
        (pre ++ {s with created := .epochStr (toEpoch d)} :: post)).1 ∧
    (extendSession uid cname add now
        (pre ++ {s with created := .iso d} :: post)).2.map obs =
      (extendSession uid cname add now
        (pre ++ {s with created := .epochStr (toEpoch d)} :: post)).2.map obs ∧
    apiList uid domain now (pre ++ {s with created := .iso d} :: post) =
      apiList uid domain now
        (pre ++ {s with created := .epochStr (toEpoch d)} :: post) := by
  have hobs : obs {s with created := .iso d} =
      obs {s with created := .epochStr (toEpoch d)} := rfl
  have hmap : (pre ++ {s with created := CreatedStored.iso d} :: post).map obs =
      (pre ++ {s with created := CreatedStored.epochStr (toEpoch d)} :: post).map
        obs := by
    rw [List.map_append, List.map_append, List.map_cons, List.map_cons, hobs]
  have hexp : expiredNames now (pre ++ {s with created := .iso d} :: post) =
      expiredNames now
        (pre ++ {s with created := .epochStr (toEpoch d)} :: post) := by
    rw [expiredNames_obs, expiredNames_obs, hmap]
  refine ⟨hexp, ?_, ?_, ?_, ?_, ?_⟩
  · show (expiredNames now
        (pre ++ {s with created := CreatedStored.iso d} :: post)).map
          (fun n => (n, stopOk n)) =
      (expiredNames now
        (pre ++ {s with created := CreatedStored.epochStr (toEpoch d)} :: post)).map
          (fun n => (n, stopOk n))
    rw [hexp]
  · have h1 : (cleanupOldContainers stopOk now
        (pre ++ {s with created := CreatedStored.iso d} :: post)).2.map obs =
        (expiredNames now
          (pre ++ {s with created := CreatedStored.iso d} :: post)).foldl
          (fun l n => l.filter fun o => o.container_name != n)
          ((pre ++ {s with created := CreatedStored.iso d} :: post).map obs) :=
      foldl_delete_map_obs _ _
    have h2 : (cleanupOldContainers stopOk now
        (pre ++ {s with created := CreatedStored.epochStr (toEpoch d)} :: post)).2.map
          obs =
        (expiredNames now
          (pre ++ {s with created := CreatedStored.epochStr (toEpoch d)} :: post)).foldl
          (fun l n => l.filter fun o => o.container_name != n)
          ((pre ++ {s with created := CreatedStored.epochStr (toEpoch d)} :: post).map
            obs) :=
      foldl_delete_map_obs _ _
    rw [h1, h2, hexp, hmap]
  · rw [(extendSession_obs uid cname add now _).1,
      (extendSession_obs uid cname add now _).1, hmap]
  · rw [(extendSession_obs uid cname add now _).2,
      (extendSession_obs uid cname add now _).2, hmap]
  · rw [apiList_obs, apiList_obs, hmap]
